import Mathlib

/-!
Verification of the GPS receiver service (modular stack) against its
specification.  The definitions below are a shallow embedding of the
JavaScript sources:

* `GpsDataProcessor` (normalisation, validation, duplicate filter),
* `BatchManager` (history buffer and latest-per-device map, flush and
  failure-restore paths),
* `RedisManager` (`saveHistoricalBatch`, `saveLatestPositions`).

Numbers: JS coordinates are modelled as rationals, instants as integer
milliseconds since the epoch (a JS `Date` compares and subtracts via its
millisecond value; `toISOString` is an injective encoding of that value,
so stored records keep the millisecond instant instead of the ISO string).
JS `Map` objects are modelled as insertion-ordered association lists.
-/

namespace GpsMumlima

/-- A JS value that `parseFloat` was applied to: `truthy` is the JS
truthiness of the raw value (the number `0` and `NaN` are falsy, every
non-empty string is truthy), `val` is the `parseFloat` result with
`none` standing for `NaN`. -/
structure JsNum where
  truthy : Bool
  val : Option ℚ
deriving DecidableEq

/-- A JS timestamp input: `truthy` as above, `val` is the millisecond
value of `new Date(x)` with `none` standing for an Invalid Date. -/
structure JsTs where
  truthy : Bool
  val : Option ℤ
deriving DecidableEq

/-- JS `a || b` over two possibly-undefined string fields (`none` is
`undefined`; the empty string is the only falsy string). -/
def jsOrStr (a b : Option String) : Option String :=
  match a with
  | some s => if s = "" then b else some s
  | none => b

/-- JS `String(x)` on a possibly-undefined value: `String(undefined)`
is the literal string `"undefined"`. -/
def jsString (o : Option String) : String :=
  match o with
  | some s => s
  | none => "undefined"

/-- JS `a || b` over two possibly-undefined numeric fields. -/
def jsOrNum (a b : Option JsNum) : Option JsNum :=
  match a with
  | some x => if x.truthy then some x else b
  | none => b

/-- `parseFloat` of a possibly-undefined value: `parseFloat(undefined)`
is `NaN` (`none`). -/
def jsParseFloat (o : Option JsNum) : Option ℚ :=
  match o with
  | some x => x.val
  | none => none

/-- JS `x ? parseFloat(x) : null` (used for the lifted metadata keys):
both an absent and a falsy raw value give `null`. -/
def jsTernaryFloat (o : Option JsNum) : Option ℚ :=
  match o with
  | some x => if x.truthy then x.val else none
  | none => none

/-- Lookup in an insertion-ordered association list (JS `Map.get`,
Redis hash read keyed by device id). -/
def lookupKey {α : Type} (m : List (String × α)) (k : String) : Option α :=
  match m with
  | [] => none
  | (k', v) :: rest => if k' = k then some v else lookupKey rest k

/-- Key membership (JS `Map.has`). -/
def hasKey {α : Type} (m : List (String × α)) (k : String) : Bool :=
  match m with
  | [] => false
  | (k', _) :: rest => if k' = k then true else hasKey rest k

/-- JS `Map.set` / Redis `HSET`: overwrite in place when the key exists
(keeping its insertion position), otherwise append at the end. -/
def mapSet {α : Type} (m : List (String × α)) (k : String) (v : α) :
    List (String × α) :=
  if hasKey m k then m.map (fun kv => if kv.1 = k then (k, v) else kv)
  else m ++ [(k, v)]

/-- Position metadata built by `normalizePosition`: the four lifted
keys (`null` when the raw field is absent or falsy) plus the raw
`metadata` object spread in verbatim.  A user key shadowing one of the
four lifted keys is not modelled; no claim observes metadata. -/
structure MetaData where
  speed : Option ℚ
  heading : Option ℚ
  altitude : Option ℚ
  accuracy : Option ℚ
  extra : List (String × String)
deriving DecidableEq

/-- Canonical GPS position as produced by the processor after
validation (`lat`/`lng` known numeric).  The decorations the batch
manager adds on insertion (`batchedAt`, `updatedAt` stamps) are carried
by no claim and are not modelled. -/
structure Position where
  deviceId : String
  lat : ℚ
  lng : ℚ
  timestamp : ℤ
  receivedAt : ℤ
  metadata : MetaData
deriving DecidableEq

/-- A duplicate-cache entry: the last accepted `(lat, lng, timestamp)`
for a device (`updateDuplicateCache` stores exactly these three
fields). -/
structure CacheEntry where
  lat : ℚ
  lng : ℚ
  timestamp : ℤ
deriving DecidableEq

/-- The processor's duplicate-filter configuration
(`duplicateEnabled`, `duplicateThreshold`, `coordinateThreshold`,
`maxCacheSize` in `GpsDataProcessor`'s constructor). -/
structure DupConfig where
  enabled : Bool
  timeThreshold : ℤ
  coordThreshold : ℚ
  maxCacheSize : ℕ
deriving DecidableEq

/-- The in-memory duplicate cache: a JS `Map` from device id to the
last accepted coordinates, insertion-ordered. -/
abbrev DupCache : Type := List (String × CacheEntry)

/-- `GpsDataProcessor.isDuplicate`: with detection disabled nothing is
a duplicate; otherwise a position is a duplicate when a cache entry
exists for its device, the absolute time difference does not exceed
`duplicateThreshold`, and both coordinate differences are strictly
below `coordinateThreshold`. -/
def isDuplicate (cfg : DupConfig) (cache : DupCache) (p : Position) : Bool :=
  if !cfg.enabled then false
  else
    match lookupKey cache p.deviceId with
    | none => false
    | some last =>
      if |p.timestamp - last.timestamp| > cfg.timeThreshold then false
      else
        decide (|p.lat - last.lat| < cfg.coordThreshold) &&
        decide (|p.lng - last.lng| < cfg.coordThreshold)

/-- `GpsDataProcessor.updateDuplicateCache`: no-op when detection is
disabled; otherwise store the accepted position's coordinates under its
device id, then evict the oldest-inserted entry if the cache exceeds
`maxCacheSize`. -/
def updateDuplicateCache (cfg : DupConfig) (cache : DupCache) (p : Position) :
    DupCache :=
  if !cfg.enabled then cache
  else
    let c := mapSet cache p.deviceId ⟨p.lat, p.lng, p.timestamp⟩
    if c.length > cfg.maxCacheSize then c.drop 1 else c

/-- Raw input record as accepted by `GpsDataProcessor.normalizePosition`.
Absent fields are `none`; numeric-ish fields carry their JS truthiness
together with their `parseFloat` (resp. `new Date`) value. -/
structure RawPosition where
  id : Option String
  deviceId : Option String
  lat : Option JsNum
  latitude : Option JsNum
  lng : Option JsNum
  longitude : Option JsNum
  timestamp : Option JsTs
  speed : Option JsNum
  heading : Option JsNum
  altitude : Option JsNum
  accuracy : Option JsNum
  metadata : List (String × String)
deriving DecidableEq

/-- Output of `normalizePosition`, before validation: `lat`/`lng` may
be `NaN` (`none`), the timestamp may be an Invalid Date (`none`). -/
structure NormPosition where
  deviceId : String
  lat : Option ℚ
  lng : Option ℚ
  timestamp : Option ℤ
  receivedAt : ℤ
  metadata : MetaData
deriving DecidableEq

/-- `GpsDataProcessor.normalizePosition`: `deviceId` is
`String(raw.id || raw.deviceId)` (so two absent ids give the string
"undefined"), `lat` is `parseFloat(raw.lat || raw.latitude)` and
symmetrically for `lng`; a truthy raw timestamp is parsed with
`new Date`, otherwise the current instant `now` is used; `receivedAt`
is `now`. -/
def normalizePosition (now : ℤ) (raw : RawPosition) : NormPosition where
  deviceId := jsString (jsOrStr raw.id raw.deviceId)
  lat := jsParseFloat (jsOrNum raw.lat raw.latitude)
  lng := jsParseFloat (jsOrNum raw.lng raw.longitude)
  timestamp :=
    match raw.timestamp with
    | some t => if t.truthy then t.val else some now
    | none => some now
  receivedAt := now
  metadata :=
    { speed := jsTernaryFloat raw.speed
      heading := jsTernaryFloat raw.heading
      altitude := jsTernaryFloat raw.altitude
      accuracy := jsTernaryFloat raw.accuracy
      extra := raw.metadata }

/-- `maxAge` in `validatePosition`: 24 hours in milliseconds. -/
def maxAgeMs : ℤ := 24 * 60 * 60 * 1000

/-- `maxFuture` in `validatePosition`: 5 minutes in milliseconds. -/
def maxFutureMs : ℤ := 5 * 60 * 1000

/-- `GpsDataProcessor.validatePosition`: throws an `AppError` (modelled
as `Except.error` with the error message) on a falsy device id, a `NaN`
coordinate, an out-of-range coordinate, an Invalid Date timestamp, or a
timestamp outside the `[now - maxAge, now + maxFuture]` window; on
success the position (now known numeric) passes through. -/
def validatePosition (now : ℤ) (p : NormPosition) : Except String Position :=
  if p.deviceId = "" then .error "Device ID is required"
  else
    match p.lat with
    | none => .error "Valid latitude is required"
    | some la =>
      match p.lng with
      | none => .error "Valid longitude is required"
      | some ln =>
        if la < -90 ∨ la > 90 then
          .error "Latitude must be between -90 and 90"
        else if ln < -180 ∨ ln > 180 then
          .error "Longitude must be between -180 and 180"
        else
          match p.timestamp with
          | none => .error "Valid timestamp is required"
          | some ts =>
            if now - ts > maxAgeMs then .error "Timestamp is too old"
            else if ts - now > maxFutureMs then
              .error "Timestamp is too far in the future"
            else .ok ⟨p.deviceId, la, ln, ts, p.receivedAt, p.metadata⟩

/-- Outcome of `processPosition`: the three JS results
`{processed:true, position}`, `{duplicate:true}`, and a thrown
`AppError`. -/
inductive Outcome where
  | accepted (p : Position)
  | duplicate
  | invalid (msg : String)
deriving DecidableEq

/-- State-passing result of `processPosition`: the outcome, the
duplicate cache after the call, and the `position.processed` events
emitted on the bus during the call. -/
structure ProcResult where
  outcome : Outcome
  cache : DupCache
  emitted : List Position
deriving DecidableEq

/-- `GpsDataProcessor.processPosition`: normalize, validate (errors
propagate), drop duplicates before touching the cache or the bus, and
on acceptance update the duplicate cache and emit
`position.processed`. -/
def processPosition (cfg : DupConfig) (now : ℤ) (cache : DupCache)
    (raw : RawPosition) : ProcResult :=
  let p := normalizePosition now raw
  match validatePosition now p with
  | .error msg => ⟨.invalid msg, cache, []⟩
  | .ok pos =>
    if isDuplicate cfg cache pos then ⟨.duplicate, cache, []⟩
    else ⟨.accepted pos, updateDuplicateCache cfg cache pos, [pos]⟩

/-- The three result buckets of `processBatch`. -/
structure BatchResults where
  processed : List Position
  duplicates : List RawPosition
  errors : List (RawPosition × String)
deriving DecidableEq

/-- `GpsDataProcessor.processBatch`: process the raw records in order,
threading the duplicate cache, and push each record into exactly one
bucket (`duplicates` on a duplicate result, `processed` on acceptance,
`errors` on a thrown validation error). -/
def processBatch (cfg : DupConfig) (now : ℤ) :
    DupCache → List RawPosition → BatchResults × DupCache
  | cache, [] => (⟨[], [], []⟩, cache)
  | cache, raw :: rest =>
    let res := processPosition cfg now cache raw
    let tail := processBatch cfg now res.cache rest
    match res.outcome with
    | .accepted p => ({ tail.1 with processed := p :: tail.1.processed }, tail.2)
    | .duplicate =>
      ({ tail.1 with duplicates := raw :: tail.1.duplicates }, tail.2)
    | .invalid msg =>
      ({ tail.1 with errors := (raw, msg) :: tail.1.errors }, tail.2)

/-- The batch manager's latest-per-device map (a JS `Map` from device
id to position). -/
abbrev LatestMap : Type := List (String × Position)

/-- `BatchManager.addToHistoricalBatch`: push the position onto the end
of the history buffer (the `batchedAt` stamp it adds is observed by no
claim and not modelled).  The size trigger schedules an asynchronous
flush and does not change the buffer. -/
def addToHistoricalBatch (buf : List Position) (p : Position) : List Position :=
  buf ++ [p]

/-- `BatchManager.updateLatestPosition`: store the position under its
device id only when no entry exists or the new timestamp is strictly
greater than the stored one. -/
def updateLatestPosition (m : LatestMap) (p : Position) : LatestMap :=
  match lookupKey m p.deviceId with
  | none => mapSet m p.deviceId p
  | some q => if p.timestamp > q.timestamp then mapSet m p.deviceId p else m

/-- A sequence of submissions into the latest map, in arrival order. -/
def submitAll (m : LatestMap) (ps : List Position) : LatestMap :=
  ps.foldl updateLatestPosition m

/-- The restore step in `BatchManager.processHistoricalBatch`'s catch
block: `this.historicalBatch.unshift(...batchToProcess)` prepends the
swapped-out batch, in order, onto whatever the buffer holds at failure
time. -/
def restoreHistoricalBatch (batchToProcess cur : List Position) :
    List Position :=
  batchToProcess ++ cur

/-- The restore step in `BatchManager.processLatestBatch`'s catch
block: every swapped-out entry is written back with `Map.set`, with no
timestamp comparison. -/
def restoreLatestBatch (latestData : List Position) (m : LatestMap) :
    LatestMap :=
  latestData.foldl (fun acc p => mapSet acc p.deviceId p) m

/-- `BatchManager` in-memory state: the history buffer, the latest map,
and the `isProcessing` flag guarding `processBatches`. -/
structure BMState where
  historicalBatch : List Position
  latestPositions : LatestMap
  isProcessing : Bool
deriving DecidableEq

/-- `BatchManager.processHistoricalBatch` run to completion with no
concurrent arrivals: an empty buffer is left alone; on enqueue success
the swapped-out batch is released; on enqueue failure it is restored
onto the (now empty) buffer. -/
def processHistoricalBatchStep (buf : List Position) (enqueueOk : Bool) :
    List Position :=
  if buf = [] then buf
  else if enqueueOk then []
  else restoreHistoricalBatch buf []

/-- `BatchManager.processLatestBatch` run to completion with no
concurrent arrivals: as for the history path, but the swapped-out
values are restored by re-`set`ting each into the cleared map. -/
def processLatestBatchStep (m : LatestMap) (enqueueOk : Bool) : LatestMap :=
  if m = [] then m
  else if enqueueOk then []
  else restoreLatestBatch (m.map Prod.snd) []

/-- `BatchManager.processBatches`: when `isProcessing` is already set
the call returns at once without flushing anything; otherwise both
flushes run (their errors are caught and only logged) and the flag is
cleared again.  The function never throws. -/
def processBatches (st : BMState) (histEnqueueOk latestEnqueueOk : Bool) :
    BMState :=
  if st.isProcessing then st
  else
    { historicalBatch := processHistoricalBatchStep st.historicalBatch histEnqueueOk
      latestPositions := processLatestBatchStep st.latestPositions latestEnqueueOk
      isProcessing := false }

/-- `BatchManager.forceProcessing`: logs and awaits `processBatches`;
since `processBatches` swallows flush errors, the call always returns
successfully. -/
def forceProcessing (st : BMState) (histEnqueueOk latestEnqueueOk : Bool) :
    BMState :=
  processBatches st histEnqueueOk latestEnqueueOk

/-- One element of the `gps:history:global` Redis list, as built in
`RedisManager.saveHistoricalBatch`.  The JS code stores the
`JSON.stringify` of this record; `timestamp`/`receivedAt` keep the
millisecond instant that `toISOString` encodes injectively. -/
structure HistEntry where
  deviceId : String
  lat : ℚ
  lng : ℚ
  timestamp : ℤ
  receivedAt : ℤ
  batchId : String
  metadata : MetaData
deriving DecidableEq

/-- The JSON record pushed for one position. -/
def toHistEntry (batchId : String) (p : Position) : HistEntry :=
  ⟨p.deviceId, p.lat, p.lng, p.timestamp, p.receivedAt, batchId, p.metadata⟩

/-- The `gps:last:<deviceId>` hash written by
`RedisManager.saveLatestPositions` (`updatedAt` is the write instant;
in Redis the metadata is stored as one JSON-encoded string field). -/
structure LatestRecord where
  deviceId : String
  lat : ℚ
  lng : ℚ
  timestamp : ℤ
  receivedAt : ℤ
  updatedAt : ℤ
  metadata : MetaData
deriving DecidableEq

/-- The hash value written for one position at instant `now`. -/
def toLatestRecord (now : ℤ) (p : Position) : LatestRecord :=
  ⟨p.deviceId, p.lat, p.lng, p.timestamp, p.receivedAt, now, p.metadata⟩

/-- The Redis state the claims observe: the global history list and the
per-device latest hashes.  The optional batch-metadata hash (disabled
by default via `config.metadata || false`), the compressed-blob key
(never written: the statement that would queue it raises first, see
`saveHistoricalBatch`), and key TTLs are observed by no claim and are
not modelled. -/
structure StoreState where
  globalHistory : List HistEntry
  latestByDevice : List (String × LatestRecord)
deriving DecidableEq

/-- Redis `LTRIM key -n -1` as issued by `saveHistoricalBatch`: keep
the last `n` elements.  JS `-0` is `0`, so `n = 0` turns the command
into `LTRIM key 0 -1`, which keeps the whole list. -/
def ltrimLast {α : Type} (n : ℕ) (l : List α) : List α :=
  if n = 0 then l else l.drop (l.length - n)

/-- `RedisManager.saveHistoricalBatch`.  While the Redis pipeline is
being built, a batch that carries `compressedData` evaluates the
undeclared identifier `tttl` (the declared local is `ttl`), so the call
throws a `ReferenceError` before `pipeline.exec()` runs and the store
is left untouched.  Otherwise, for a non-empty batch, one pipelined
`exec` appends every position's JSON record to the global list and
trims it to the last `maxHistorySize` entries; a failing `exec` is
rethrown with the store unchanged (the worker will retry). -/
def saveHistoricalBatch (maxHistorySize : ℕ) (st : StoreState)
    (batchId : String) (positions : List Position)
    (compressedData : Option String) (execOk : Bool) :
    Except String StoreState :=
  let entries := positions.map (toHistEntry batchId)
  if compressedData.isSome then .error "ReferenceError: tttl is not defined"
  else if !execOk then .error "pipeline exec failed"
  else
    .ok { st with
          globalHistory :=
            if entries.length > 0 then
              ltrimLast maxHistorySize (st.globalHistory ++ entries)
            else st.globalHistory }

/-- `this.maxHistorySize = config.cleanup?.maxHistoryEntries || 100000`:
an absent or zero configured bound falls back to the default. -/
def maxHistorySizeOf (configured : Option ℕ) : ℕ :=
  match configured with
  | none => 100000
  | some n => if n = 0 then 100000 else n

/-- The loop body of `RedisManager.saveLatestPositions`: walk the batch
in order, skip any device already written in this batch
(`processedDevices`), and `HSET`-overwrite the hash of each device on
its first occurrence. -/
def saveLatestGo (now : ℤ) :
    List Position → List String → List (String × LatestRecord) →
      List (String × LatestRecord)
  | [], _, s => s
  | p :: rest, seen, s =>
    if p.deviceId ∈ seen then saveLatestGo now rest seen s
    else
      saveLatestGo now rest (p.deviceId :: seen)
        (mapSet s p.deviceId (toLatestRecord now p))

/-- `RedisManager.saveLatestPositions`: one pipelined `exec` of the
per-device overwrites (a failing `exec` is rethrown with the store
unchanged; the per-key TTL set when cleanup is enabled is not
modelled). -/
def saveLatestPositions (now : ℤ) (st : StoreState) (positions : List Position)
    (execOk : Bool) : Except String StoreState :=
  if !execOk then .error "pipeline exec failed"
  else .ok { st with
             latestByDevice := saveLatestGo now positions [] st.latestByDevice }

/-- The `position.processed` listener `BatchManager` registers: each
emitted position is appended to the history buffer and offered to the
latest map.  Folding it over the events of a processor call gives the
accumulator state the call leaves behind. -/
def applyProcessed (buf : List Position) (m : LatestMap)
    (events : List Position) : List Position × LatestMap :=
  events.foldl (fun s p => (addToHistoricalBatch s.1 p, updateLatestPosition s.2 p))
    (buf, m)

/-- Reference fold used to reason about `updateLatestPosition`: the
survivor of a stream of candidates for one device, replacing only on a
strictly greater timestamp. -/
def stepFold (acc : Option Position) (l : List Position) : Option Position :=
  l.foldl
    (fun a p =>
      match a with
      | none => some p
      | some q => if p.timestamp > q.timestamp then some p else some q)
    acc

/-- Empty metadata (all lifted keys `null`, no user keys). -/
def md0 : MetaData := ⟨none, none, none, none, []⟩

/-- Sample positions for concrete witnesses and counterexamples. -/
def pos1 : Position := ⟨"d1", 1, 2, 1000, 1000, md0⟩

def pos2 : Position := ⟨"d1", 3, 4, 2000, 2000, md0⟩

def pos3 : Position := ⟨"d2", 5, 6, 3000, 3000, md0⟩

/-- The default duplicate-filter configuration (detection on, 1 s time
threshold, 0.0001 coordinate threshold, 1000 cache entries). -/
def defaultDupConfig : DupConfig := ⟨true, 1000, 1 / 10000, 1000⟩

/-- Three submissions for device `d`, arriving in this order: `tieA`
and `tieB` carry the same timestamp, `tieC` an older one. -/
def tieA : Position := ⟨"d", 1, 1, 5, 0, md0⟩

def tieB : Position := ⟨"d", 2, 2, 5, 1, md0⟩

def tieC : Position := ⟨"d", 3, 3, 3, 2, md0⟩

/-- A position for device `d` that arrived during a flush (newer) and
the swapped-out one being restored after the enqueue failed (older). -/
def flushNew : Position := ⟨"d", 9, 9, 100, 3, md0⟩

def flushOld : Position := ⟨"d", 8, 8, 50, 4, md0⟩

/-- A batch-manager state in which a flush cycle is already marked in
progress while a position is pending. -/
def busyState : BMState := ⟨[pos1], [], true⟩

/-- An idle batch-manager state holding pending data. -/
def idleState : BMState := ⟨[pos1], [("d1", pos2)], false⟩

/-- A duplicate cache holding device `d1` at `(1, 2, t = 1000)`. -/
def dupCache1 : DupCache := [("d1", ⟨1, 2, 1000⟩)]

/-- A raw submission for `d1` at the cached coordinates, 500 ms after
the cached timestamp. -/
def dupRaw : RawPosition :=
  ⟨some "d1", none, some ⟨true, some 1⟩, none, some ⟨true, some 2⟩, none,
    some ⟨true, some 1500⟩, none, none, none, none, []⟩

/-- The normalisation of `dupRaw` at `now = 1500`. -/
def dupPos : Position := ⟨"d1", 1, 2, 1500, 1500, md0⟩

/-! ## Theorems -/

theorem lookupKey_append {α : Type} (m₁ m₂ : List (String × α)) (d : String) :
    lookupKey (m₁ ++ m₂) d =
      match lookupKey m₁ d with
      | some v => some v
      | none => lookupKey m₂ d := by
  induction m₁ with
  | nil => simp [lookupKey]
  | cons kv rest ih =>
    obtain ⟨k', v'⟩ := kv
    by_cases h : k' = d
    · simp [lookupKey, h]
    · simp [lookupKey, h, ih]

theorem lookupKey_none_of_not_hasKey {α : Type} (m : List (String × α))
    (d : String) (h : hasKey m d = false) : lookupKey m d = none := by
  induction m with
  | nil => rfl
  | cons kv rest ih =>
    obtain ⟨k', v'⟩ := kv
    by_cases hd : k' = d
    · simp [hasKey, hd] at h
    · simp only [hasKey, if_neg hd] at h
      simp [lookupKey, hd, ih h]

theorem lookupKey_map_update {α : Type} (m : List (String × α)) (k d : String)
    (v : α) :
    lookupKey (m.map (fun kv => if kv.1 = k then (k, v) else kv)) d =
      if k = d then (if hasKey m k then some v else none)
      else lookupKey m d := by
  induction m with
  | nil =>
    by_cases h : k = d <;> simp [lookupKey, hasKey, h]
  | cons kv rest ih =>
    obtain ⟨k', v'⟩ := kv
    simp only [List.map_cons]
    by_cases h1 : k' = k
    · rw [show (if ((k', v') : String × α).1 = k then (k, v) else (k', v'))
          = (k, v) by simp [h1]]
      subst h1
      by_cases h2 : k' = d
      · subst h2
        simp [lookupKey, hasKey]
      · simp [lookupKey, hasKey, h2, ih, Ne.symm h2]
    · rw [show (if ((k', v') : String × α).1 = k then (k, v) else (k', v'))
          = (k', v') by simp [h1]]
      by_cases h2 : k' = d
      · subst h2
        have hkd : ¬k = k' := fun h => h1 h.symm
        simp [lookupKey, hasKey, h1, hkd]
      · simp [lookupKey, hasKey, h1, h2, ih]

theorem lookupKey_mapSet {α : Type} (m : List (String × α)) (k d : String)
    (v : α) :
    lookupKey (mapSet m k v) d = if k = d then some v else lookupKey m d := by
  unfold mapSet
  by_cases hm : hasKey m k
  · simp [hm, lookupKey_map_update]
  · simp only [hm, Bool.false_eq_true, if_false, if_neg]
    rw [lookupKey_append]
    by_cases hk : k = d
    · subst hk
      rw [lookupKey_none_of_not_hasKey m k (by simpa using hm)]
      simp [lookupKey]
    · cases h : lookupKey m d <;> simp [lookupKey, hk, h]

/-- The effective retention bound is always positive. -/
theorem maxHistorySizeOf_pos (c : Option ℕ) : 0 < maxHistorySizeOf c := by
  cases c with
  | none => simp [maxHistorySizeOf]
  | some n =>
    by_cases h : n = 0
    · simp [maxHistorySizeOf, h]
    · simp only [maxHistorySizeOf, if_neg h]
      omega

/-- Claim C1: the spec says `write_history_batch` appends every position
and raises only on store failure, and that a call carrying the
pre-compressed blob (as every worker-issued call does, since
`processHistoricalJob` always computes `compressedData`) completes the
append.  In the code, any call with `compressedData` evaluates the
undeclared identifier `tttl` while building the pipeline, so it raises
a `ReferenceError` before `pipeline.exec()` and appends nothing: here a
one-position batch with a blob errors out against a healthy store. -/
theorem C1_compressed_batch_raises :
    saveHistoricalBatch 100000 ⟨[], []⟩ "hist_1_a" [pos1] (some "blob") true
      = Except.error "ReferenceError: tttl is not defined" := rfl

/-- Claim C2: after any successful (non-empty) append through
`saveHistoricalBatch`, the global history holds at most the effective
retention bound `maxHistorySize = config.cleanup?.maxHistoryEntries ||
100000`, because the `LTRIM` to the last `maxHistorySize` entries runs
in the same pipelined `exec` as the `RPUSH`. -/
theorem C2_history_length_bounded (c : Option ℕ) (st st' : StoreState)
    (batchId : String) (positions : List Position)
    (compressedData : Option String) (execOk : Bool)
    (hne : positions ≠ [])
    (h : saveHistoricalBatch (maxHistorySizeOf c) st batchId positions
          compressedData execOk = Except.ok st') :
    st'.globalHistory.length ≤ maxHistorySizeOf c := by
  unfold saveHistoricalBatch at h
  cases compressedData with
  | some blob => simp at h
  | none =>
    cases execOk with
    | false => simp at h
    | true =>
      simp only [Option.isSome_none, Bool.false_eq_true, if_false,
        Bool.not_true, if_neg] at h
      have hlen : (positions.map (toHistEntry batchId)).length > 0 := by
        cases positions with
        | nil => exact absurd rfl hne
        | cons a l => simp
      rw [if_pos hlen] at h
      cases h with
      | refl =>
        simp only [ltrimLast, if_neg (Nat.pos_iff_ne_zero.mp (maxHistorySizeOf_pos c))]
        rw [List.length_drop]
        omega

/-- Witness for C2: three entries appended against a configured bound
of 2 leave exactly the last two entries. -/
theorem C2_history_length_bounded_witness :
    (StoreState.mk [toHistEntry "b" pos2, toHistEntry "b" pos3] []).globalHistory.length
      ≤ maxHistorySizeOf (some 2) :=
  C2_history_length_bounded (some 2) ⟨[], []⟩ _ "b" [pos1, pos2, pos3] none true
    (by decide) (by rfl)

/-- Claim C4: with duplicate detection enabled, `isDuplicate` returns
true exactly when a cache entry exists for the device, the absolute
timestamp difference is at most `timeThreshold`, and both absolute
coordinate differences are strictly below `coordinateThreshold`. -/
theorem C4_duplicate_iff (cfg : DupConfig) (cache : DupCache) (p : Position)
    (henabled : cfg.enabled = true) :
    isDuplicate cfg cache p = true ↔
      ∃ e, lookupKey cache p.deviceId = some e ∧
        |p.timestamp - e.timestamp| ≤ cfg.timeThreshold ∧
        |p.lat - e.lat| < cfg.coordThreshold ∧
        |p.lng - e.lng| < cfg.coordThreshold := by
  unfold isDuplicate
  rw [henabled]
  simp only [Bool.not_true, Bool.false_eq_true, if_false]
  cases hl : lookupKey cache p.deviceId with
  | none =>
    simp
  | some e =>
    dsimp only
    by_cases ht : |p.timestamp - e.timestamp| > cfg.timeThreshold
    · rw [if_pos ht]
      simp only [Bool.false_eq_true, false_iff]
      rintro ⟨e', he', h1, -, -⟩
      obtain rfl : e = e' := by injection he'
      omega
    · rw [if_neg ht]
      constructor
      · intro hb
        rw [Bool.and_eq_true, decide_eq_true_iff, decide_eq_true_iff] at hb
        exact ⟨e, rfl, by omega, hb.1, hb.2⟩
      · rintro ⟨e', he', -, h2, h3⟩
        obtain rfl : e = e' := by injection he'
        rw [Bool.and_eq_true, decide_eq_true_iff, decide_eq_true_iff]
        exact ⟨h2, h3⟩

/-- Witness for C4: a position 500 ms and 0 degrees away from its
cached entry is flagged as a duplicate. -/
theorem C4_duplicate_iff_witness :
    isDuplicate defaultDupConfig [("d1", ⟨1, 2, 1000⟩)] ⟨"d1", 1, 2, 1500, 1500, md0⟩
      = true :=
  (C4_duplicate_iff defaultDupConfig [("d1", ⟨1, 2, 1000⟩)]
      ⟨"d1", 1, 2, 1500, 1500, md0⟩ rfl).mpr
    ⟨⟨1, 2, 1000⟩, rfl, by norm_num [defaultDupConfig], by norm_num [defaultDupConfig],
      by norm_num [defaultDupConfig]⟩

/-- What `saveLatestGo` leaves under a device key: the first position
of the remaining batch for a not-yet-seen device wins; seen devices
keep whatever the store already holds. -/
theorem saveLatestGo_lookup (now : ℤ) (ps : List Position) :
    ∀ (seen : List String) (s : List (String × LatestRecord)) (d : String),
      lookupKey (saveLatestGo now ps seen s) d =
        if d ∈ seen then lookupKey s d
        else
          match ps.find? (fun p => p.deviceId == d) with
          | some p => some (toLatestRecord now p)
          | none => lookupKey s d := by
  induction ps with
  | nil =>
    intro seen s d
    by_cases h : d ∈ seen <;> simp [saveLatestGo, h]
  | cons p rest ih =>
    intro seen s d
    by_cases hp : p.deviceId ∈ seen
    · rw [show saveLatestGo now (p :: rest) seen s = saveLatestGo now rest seen s
          from by simp [saveLatestGo, hp]]
      rw [ih seen s d]
      by_cases hd : d ∈ seen
      · simp [hd]
      · have hne : ¬(p.deviceId == d) = true := by
          intro hb
          rw [beq_iff_eq] at hb
          exact hd (hb ▸ hp)
        simp [hd, List.find?, hne]
    · rw [show saveLatestGo now (p :: rest) seen s
          = saveLatestGo now rest (p.deviceId :: seen)
              (mapSet s p.deviceId (toLatestRecord now p))
          from by simp [saveLatestGo, hp]]
      rw [ih (p.deviceId :: seen) (mapSet s p.deviceId (toLatestRecord now p)) d]
      by_cases hd : d = p.deviceId
      · subst hd
        simp [List.find?, lookupKey_mapSet, hp]
      · have hmem : (d ∈ p.deviceId :: seen) = (d ∈ seen) := by
          simp [List.mem_cons, hd]
        by_cases hds : d ∈ seen
        · simp [hds, hd, lookupKey_mapSet, Ne.symm hd]
        · have hne : ¬(p.deviceId == d) = true := by
            simp [beq_iff_eq]
            exact fun h => hd h.symm
          simp [hds, hd, lookupKey_mapSet, Ne.symm hd, List.find?, hne]

/-- Claim C3 counterexample: the claim says `saveLatestPositions` keeps,
per device, the position with the greatest timestamp.  With two
positions for device `d1` — `pos1` at t = 1000 and `pos2` at t = 2000,
submitted in that order — the code stores `pos1`'s record: the
`processedDevices` set skips every occurrence of a device after the
first, so the first position in batch order wins, not the greatest
timestamp. -/
theorem C3_first_beats_greatest_timestamp :
    pos1.timestamp < pos2.timestamp ∧
    saveLatestPositions 9 ⟨[], []⟩ [pos1, pos2] true
      = Except.ok ⟨[], [("d1", toLatestRecord 9 pos1)]⟩ ∧
    toLatestRecord 9 pos1 ≠ toLatestRecord 9 pos2 := by
  refine ⟨by norm_num [pos1, pos2], rfl, ?_⟩
  intro h
  have : pos1.timestamp = pos2.timestamp := congrArg LatestRecord.timestamp h
  norm_num [pos1, pos2] at this

/-- Claim C3 amended: `saveLatestPositions` collapses the input to at
most one write per device, keeping for each device its FIRST position
in batch order (not the one with the greatest timestamp), and
overwrites that device's stored record; devices absent from the batch
are untouched. -/
theorem C3_collapse_first_occurrence (now : ℤ) (st st' : StoreState)
    (positions : List Position) (execOk : Bool) (d : String)
    (h : saveLatestPositions now st positions execOk = Except.ok st') :
    lookupKey st'.latestByDevice d =
      match positions.find? (fun p => p.deviceId == d) with
      | some p => some (toLatestRecord now p)
      | none => lookupKey st.latestByDevice d := by
  unfold saveLatestPositions at h
  cases execOk with
  | false => simp at h
  | true =>
    simp only [Bool.not_true, Bool.false_eq_true, if_neg, if_false] at h
    cases h with
    | refl =>
      rw [saveLatestGo_lookup now positions [] st.latestByDevice d]
      simp

/-- Witness for the amended C3: after writing `[pos1, pos2]` (both for
device `d1`), the stored record for `d1` is `pos1`'s. -/
theorem C3_collapse_first_occurrence_witness :
    lookupKey (StoreState.mk [] [("d1", toLatestRecord 9 pos1)]).latestByDevice "d1"
      = match [pos1, pos2].find? (fun p => p.deviceId == "d1") with
        | some p => some (toLatestRecord 9 p)
        | none => lookupKey (StoreState.mk [] []).latestByDevice "d1" :=
  C3_collapse_first_occurrence 9 ⟨[], []⟩ _ [pos1, pos2] true "d1" rfl

/-- Claim C5: the spec says a raw record with no device id (neither
`id` nor `deviceId`) is rejected as Invalid.  In the code,
`normalizePosition` computes `String(raw.id || raw.deviceId)`, which
for two absent fields is the non-empty string "undefined", so the
`!position.deviceId` check in `validatePosition` never fires: this
otherwise-valid record with no id at all is accepted, with device id
"undefined". -/
theorem C5_missing_device_id_accepted :
    (processPosition defaultDupConfig 0 []
        ⟨none, none, some ⟨true, some 40⟩, none, some ⟨true, some (-74)⟩, none,
          some ⟨true, some 0⟩, none, none, none, none, []⟩).outcome
      = Outcome.accepted ⟨"undefined", 40, -74, 0, 0, md0⟩ := by
  rfl

/-- Updating the latest map for one device leaves every other device's
entry unchanged. -/
theorem lookup_updateLatestPosition_ne (m : LatestMap) (p : Position)
    (d : String) (hd : d ≠ p.deviceId) :
    lookupKey (updateLatestPosition m p) d = lookupKey m d := by
  unfold updateLatestPosition
  cases hm : lookupKey m p.deviceId with
  | none => rw [lookupKey_mapSet, if_neg (fun h => hd h.symm)]
  | some q =>
    dsimp only
    by_cases hts : p.timestamp > q.timestamp
    · rw [if_pos hts, lookupKey_mapSet, if_neg (fun h => hd h.symm)]
    · rw [if_neg hts]

/-- The latest map agrees with the per-device survivor fold: what a
device's entry is after a stream of submissions depends only on the
submissions for that device, processed left to right with strict
replacement. -/
theorem submitAll_lookup (ps : List Position) :
    ∀ (m : LatestMap) (d : String),
      lookupKey (submitAll m ps) d =
        stepFold (lookupKey m d) (ps.filter (fun p => p.deviceId == d)) := by
  induction ps with
  | nil => intro m d; rfl
  | cons p rest ih =>
    intro m d
    have hsub : submitAll m (p :: rest) = submitAll (updateLatestPosition m p) rest :=
      rfl
    rw [hsub, ih]
    by_cases hd : p.deviceId = d
    · rw [List.filter_cons_of_pos (by simpa using hd)]
      have hstep : lookupKey (updateLatestPosition m p) d =
          match lookupKey m d with
          | none => some p
          | some q => if p.timestamp > q.timestamp then some p else some q := by
        unfold updateLatestPosition
        rw [hd]
        cases hm : lookupKey m d with
        | none =>
          rw [lookupKey_mapSet]
          simp
        | some q =>
          dsimp only
          by_cases hts : p.timestamp > q.timestamp
          · rw [if_pos hts, lookupKey_mapSet]
            simp [hts]
          · rw [if_neg hts, hm, if_neg hts]
      rw [hstep]
      cases lookupKey m d <;> rfl
    · rw [List.filter_cons_of_neg (by simpa using hd),
        lookup_updateLatestPosition_ne m p d (fun h => hd h.symm)]

/-- Characterisation of the survivor fold seeded with `q0`: either no
candidate strictly beats `q0` and `q0` survives, or the survivor is the
first candidate whose timestamp matches the running maximum. -/
theorem stepFold_char (l : List Position) :
    ∀ q0 : Position,
      (stepFold (some q0) l = some q0 ∧ ∀ r ∈ l, r.timestamp ≤ q0.timestamp) ∨
      (∃ q, stepFold (some q0) l = some q ∧ q ∈ l ∧
        q0.timestamp < q.timestamp ∧
        (∀ r ∈ l, r.timestamp ≤ q.timestamp) ∧
        l.find? (fun r => decide (q.timestamp ≤ r.timestamp)) = some q) := by
  induction l with
  | nil => intro q0; left; exact ⟨rfl, by simp⟩
  | cons p rest ih =>
    intro q0
    by_cases hc : p.timestamp > q0.timestamp
    · have hstep : stepFold (some q0) (p :: rest) = stepFold (some p) rest := by
        show stepFold (if p.timestamp > q0.timestamp then some p else some q0) rest
          = stepFold (some p) rest
        rw [if_pos hc]
      rcases ih p with ⟨heq, hall⟩ | ⟨q, heq, hmem, hlt, hall, hfind⟩
      · right
        refine ⟨p, by rw [hstep, heq], List.mem_cons_self p rest, hc, ?_, ?_⟩
        · intro r hr
          rcases List.mem_cons.mp hr with hr | hr
          · exact hr ▸ le_refl _
          · exact hall r hr
        · exact List.find?_cons_of_pos rest (by simp)
      · right
        refine ⟨q, by rw [hstep, heq], List.mem_cons_of_mem p hmem,
          lt_trans hc hlt, ?_, ?_⟩
        · intro r hr
          rcases List.mem_cons.mp hr with hr | hr
          · exact hr ▸ le_of_lt hlt
          · exact hall r hr
        · rw [List.find?_cons_of_neg rest (by simp; exact hlt), hfind]
    · have hstep : stepFold (some q0) (p :: rest) = stepFold (some q0) rest := by
        show stepFold (if p.timestamp > q0.timestamp then some p else some q0) rest
          = stepFold (some q0) rest
        rw [if_neg hc]
      have hple : p.timestamp ≤ q0.timestamp := not_lt.mp hc
      rcases ih q0 with ⟨heq, hall⟩ | ⟨q, heq, hmem, hlt, hall, hfind⟩
      · left
        refine ⟨by rw [hstep, heq], ?_⟩
        intro r hr
        rcases List.mem_cons.mp hr with hr | hr
        · exact hr ▸ hple
        · exact hall r hr
      · right
        refine ⟨q, by rw [hstep, heq], List.mem_cons_of_mem p hmem, hlt, ?_, ?_⟩
        · intro r hr
          rcases List.mem_cons.mp hr with hr | hr
          · exact hr ▸ le_of_lt (lt_of_le_of_lt hple hlt)
          · exact hall r hr
        · rw [List.find?_cons_of_neg rest
            (by simp; exact lt_of_le_of_lt hple hlt), hfind]

/-- Claim C6 counterexample: the claim says that of two submissions for
the same device with equal timestamps, the later-arriving one is
retained.  Submitting `tieA` then `tieB` (same device, same timestamp)
leaves `tieA` in the map: `updateLatestPosition` replaces only on a
strictly greater timestamp, so a tie keeps the earlier arrival. -/
theorem C6_tie_keeps_earlier :
    tieA.deviceId = tieB.deviceId ∧ tieA.timestamp = tieB.timestamp ∧
    lookupKey (submitAll [] [tieA, tieB]) "d" = some tieA ∧
    lookupKey (submitAll [] [tieA, tieB]) "d" ≠ some tieB := by
  refine ⟨rfl, rfl, rfl, ?_⟩
  intro h
  have hA : lookupKey (submitAll [] [tieA, tieB]) "d" = some tieA := rfl
  rw [hA] at h
  have h2 : tieA = tieB := by injection h
  have := congrArg Position.receivedAt h2
  norm_num [tieA, tieB] at this

/-- Claim C6 amended: over any sequence of submissions into the latest
map, the entry retained for a device is one of that device's
submissions, its timestamp is the greatest among them, and among the
submissions achieving that maximum it is the EARLIEST-arriving one (a
later submission replaces the entry only on a strictly greater
timestamp, so ties keep the earlier arrival). -/
theorem C6_latest_map_survivor (ps : List Position) (d : String)
    (hne : ps.filter (fun p => p.deviceId == d) ≠ []) :
    ∃ q, lookupKey (submitAll [] ps) d = some q ∧
      q ∈ ps.filter (fun p => p.deviceId == d) ∧
      (∀ r ∈ ps.filter (fun p => p.deviceId == d),
        r.timestamp ≤ q.timestamp) ∧
      (ps.filter (fun p => p.deviceId == d)).find?
          (fun r => decide (q.timestamp ≤ r.timestamp)) = some q := by
  rw [submitAll_lookup ps [] d]
  obtain ⟨p, rest, hfil⟩ : ∃ p rest,
      ps.filter (fun p => p.deviceId == d) = p :: rest := by
    cases h : ps.filter (fun p => p.deviceId == d) with
    | nil => exact absurd h hne
    | cons a l => exact ⟨a, l, rfl⟩
  rw [hfil]
  have hseed : stepFold (lookupKey ([] : LatestMap) d) (p :: rest)
      = stepFold (some p) rest := rfl
  rw [hseed]
  rcases stepFold_char rest p with ⟨heq, hall⟩ | ⟨q, heq, hmem, hlt, hall, hfind⟩
  · refine ⟨p, heq, List.mem_cons_self p rest, ?_, ?_⟩
    · intro r hr
      rcases List.mem_cons.mp hr with hr | hr
      · exact hr ▸ le_refl _
      · exact hall r hr
    · exact List.find?_cons_of_pos rest (by simp)
  · refine ⟨q, heq, List.mem_cons_of_mem p hmem, ?_, ?_⟩
    · intro r hr
      rcases List.mem_cons.mp hr with hr | hr
      · exact hr ▸ le_of_lt hlt
      · exact hall r hr
    · rw [List.find?_cons_of_neg rest (by simp; exact hlt), hfind]

/-- Witness for the amended C6: among `tieA`, `tieB`, `tieC` the
survivor exists and is characterised as stated. -/
theorem C6_latest_map_survivor_witness :
    ∃ q, lookupKey (submitAll [] [tieA, tieB, tieC]) "d" = some q ∧
      q ∈ [tieA, tieB, tieC].filter (fun p => p.deviceId == "d") ∧
      (∀ r ∈ [tieA, tieB, tieC].filter (fun p => p.deviceId == "d"),
        r.timestamp ≤ q.timestamp) ∧
      ([tieA, tieB, tieC].filter (fun p => p.deviceId == "d")).find?
          (fun r => decide (q.timestamp ≤ r.timestamp)) = some q :=
  C6_latest_map_survivor [tieA, tieB, tieC] "d" (by simp [tieA, tieB, tieC])

/-- `find?` over an appended list searches the left part first. -/
theorem find_append {α : Type} (f : α → Bool) (l₁ l₂ : List α) :
    (l₁ ++ l₂).find? f =
      match l₁.find? f with
      | some x => some x
      | none => l₂.find? f := by
  induction l₁ with
  | nil => simp
  | cons a l ih =>
    by_cases h : f a = true
    · rw [List.cons_append, List.find?_cons_of_pos _ h,
        List.find?_cons_of_pos _ h]
    · rw [List.cons_append, List.find?_cons_of_neg _ (by simp [h]),
        List.find?_cons_of_neg _ (by simp [h]), ih]

/-- Effect of the latest-restore fold on one device key: the LAST
swapped-out entry for the device wins, and it unconditionally replaces
whatever the live map holds. -/
theorem restoreLatestBatch_lookup (data : List Position) :
    ∀ (m : LatestMap) (d : String),
      lookupKey (restoreLatestBatch data m) d =
        match data.reverse.find? (fun p => p.deviceId == d) with
        | some p => some p
        | none => lookupKey m d := by
  induction data with
  | nil => intro m d; simp [restoreLatestBatch]
  | cons p rest ih =>
    intro m d
    have h1 : restoreLatestBatch (p :: rest) m
        = restoreLatestBatch rest (mapSet m p.deviceId p) := rfl
    rw [h1, ih, List.reverse_cons, find_append]
    cases hf : rest.reverse.find? (fun q => q.deviceId == d) with
    | some q => rfl
    | none =>
      dsimp only
      rw [lookupKey_mapSet]
      by_cases hd : p.deviceId = d
      · rw [if_pos hd, List.find?_cons_of_pos _ (by simp [hd])]
      · rw [if_neg hd, List.find?_cons_of_neg _ (by simp [hd])]
        rfl

/-- Claim C7 counterexample: the claim says a latest-map entry that
arrived during the flush with a newer timestamp is never overwritten by
the failure restore.  Restoring swapped-out `flushOld` (t = 50) into a
map holding `flushNew` (t = 100) for the same device leaves `flushOld`
in the map: the restore re-`set`s entries with no timestamp check. -/
theorem C7_restore_overwrites_newer :
    flushOld.timestamp < flushNew.timestamp ∧
    lookupKey (restoreLatestBatch [flushOld] [("d", flushNew)]) "d"
      = some flushOld ∧
    lookupKey (restoreLatestBatch [flushOld] [("d", flushNew)]) "d"
      ≠ some flushNew := by
  refine ⟨by norm_num [flushOld, flushNew], rfl, ?_⟩
  intro h
  have hA : lookupKey (restoreLatestBatch [flushOld] [("d", flushNew)]) "d"
      = some flushOld := rfl
  rw [hA] at h
  have h2 : flushOld = flushNew := by injection h
  have := congrArg Position.timestamp h2
  norm_num [flushOld, flushNew] at this

/-- Claim C7 amended: on enqueue failure the swapped-out history data
is prepended back onto the history buffer preserving order (the
restored buffer starts with exactly the swapped-out batch, followed by
what arrived during the flush); swapped-out latest entries, however,
are reinserted UNCONDITIONALLY — the last swapped-out entry per device
replaces whatever the map holds, even an entry that arrived during the
flush with a newer timestamp. -/
theorem C7_failure_restore (swapped cur data : List Position) (m : LatestMap)
    (d : String) :
    (restoreHistoricalBatch swapped cur).take swapped.length = swapped ∧
    (restoreHistoricalBatch swapped cur).drop swapped.length = cur ∧
    lookupKey (restoreLatestBatch data m) d =
      (match data.reverse.find? (fun p => p.deviceId == d) with
       | some p => some p
       | none => lookupKey m d) := by
  refine ⟨?_, ?_, restoreLatestBatch_lookup data m d⟩
  · unfold restoreHistoricalBatch
    simp
  · unfold restoreHistoricalBatch
    simp

/-- Claim C8: `processBatch` partitions its input — every raw record
lands in exactly one of the three buckets, so the bucket sizes sum to
the input length. -/
theorem C8_batch_partition (cfg : DupConfig) (now : ℤ)
    (raws : List RawPosition) :
    ∀ cache : DupCache,
      (processBatch cfg now cache raws).1.processed.length
        + (processBatch cfg now cache raws).1.duplicates.length
        + (processBatch cfg now cache raws).1.errors.length = raws.length := by
  induction raws with
  | nil => intro cache; rfl
  | cons raw rest ih =>
    intro cache
    simp only [processBatch]
    cases h : (processPosition cfg now cache raw).outcome with
    | accepted p =>
      simp only [h, List.length_cons]
      have := ih (processPosition cfg now cache raw).cache
      omega
    | duplicate =>
      simp only [h, List.length_cons]
      have := ih (processPosition cfg now cache raw).cache
      omega
    | invalid msg =>
      simp only [h, List.length_cons]
      have := ih (processPosition cfg now cache raw).cache
      omega

/-- Claim C9 counterexample: the claim says a successful `force_flush`
leaves both accumulators empty even when a flush cycle is already
marked in progress.  With `isProcessing` set and a pending position,
`forceProcessing` returns successfully (its model never throws, since
`processBatches` catches flush errors) yet the state — history buffer
included — is completely unchanged: `processBatches` bails out at the
`isProcessing` guard. -/
theorem C9_skips_when_processing :
    forceProcessing busyState true true = busyState ∧
    busyState.historicalBatch ≠ [] := by
  exact ⟨rfl, by simp [busyState]⟩

/-- Claim C9 amended: when no flush cycle is marked in progress and
both enqueues succeed, `forceProcessing` leaves both accumulators
empty; when `isProcessing` is set, it returns without touching either
accumulator. -/
theorem C9_force_flush_empties (st : BMState) (h : st.isProcessing = false) :
    (forceProcessing st true true).historicalBatch = [] ∧
    (forceProcessing st true true).latestPositions = [] := by
  unfold forceProcessing processBatches
  rw [h]
  constructor
  · by_cases hb : st.historicalBatch = [] <;>
      simp [processHistoricalBatchStep, hb]
  · by_cases hb : st.latestPositions = [] <;>
      simp [processLatestBatchStep, hb]

/-- Witness for the amended C9: forcing an idle state with pending data
in both accumulators empties both. -/
theorem C9_force_flush_empties_witness :
    (forceProcessing idleState true true).historicalBatch = [] ∧
    (forceProcessing idleState true true).latestPositions = [] :=
  C9_force_flush_empties idleState rfl

/-- Claim C10: when `processPosition` classifies a record as a
duplicate it returns before `updateDuplicateCache` and before the
`position.processed` emit, so the duplicate cache still holds the last
ACCEPTED coordinates, no event is emitted, and the batch manager's
listener leaves the history buffer and latest map untouched. -/
theorem C10_duplicate_is_pure (cfg : DupConfig) (now : ℤ) (cache : DupCache)
    (raw : RawPosition) (buf : List Position) (m : LatestMap)
    (h : (processPosition cfg now cache raw).outcome = Outcome.duplicate) :
    (processPosition cfg now cache raw).cache = cache ∧
    (processPosition cfg now cache raw).emitted = [] ∧
    applyProcessed buf m (processPosition cfg now cache raw).emitted
      = (buf, m) := by
  simp only [processPosition] at h ⊢
  cases hv : validatePosition now (normalizePosition now raw) with
  | error msg =>
    rw [hv] at h
    simp at h
  | ok pos =>
    rw [hv] at h
    dsimp only at h ⊢
    by_cases hdup : isDuplicate cfg cache pos = true
    · rw [if_pos hdup]
      exact ⟨rfl, rfl, rfl⟩
    · rw [if_neg hdup] at h
      simp at h

/-- Witness for C10: a record 500 ms from its cached entry at identical
coordinates is a duplicate, and processing it changes nothing. -/
theorem C10_duplicate_is_pure_witness :
    (processPosition defaultDupConfig 1500 dupCache1 dupRaw).cache = dupCache1 ∧
    (processPosition defaultDupConfig 1500 dupCache1 dupRaw).emitted = [] ∧
    applyProcessed [pos1] [("d2", pos3)]
        ((processPosition defaultDupConfig 1500 dupCache1 dupRaw).emitted)
      = ([pos1], [("d2", pos3)]) :=
  C10_duplicate_is_pure defaultDupConfig 1500 dupCache1 dupRaw [pos1]
    [("d2", pos3)]
    (by
      have hval : validatePosition 1500 (normalizePosition 1500 dupRaw)
          = Except.ok dupPos := rfl
      have hdup : isDuplicate defaultDupConfig dupCache1 dupPos = true := by
        simp [isDuplicate, dupCache1, lookupKey, defaultDupConfig, dupPos]
      simp [processPosition, hval, hdup])

end GpsMumlima
